import Mathlib

/-!
Verification development for the layered concurrent deployment orchestrator
of project-ai-services (Go). Shallow embedding of the functions of
`cmd/ai-services/cmd/application/create.go` (the `application` package),
`internal/pkg/cli/helpers/helper.go` and
`internal/pkg/runtime/podman` that the specification's claims concern.

Modelling conventions:
* Durations are integers counted in seconds (Go `time.Duration` values are
  only compared and added in the modelled code, so the unit is irrelevant;
  10s, 5min and 10min become 10, 300 and 600).
* A polling loop whose i-th inspection happens i * interval seconds after
  the call (inspections and bookkeeping are treated as instantaneous, the
  sleeps as exact) is embedded as structural recursion over a fuel
  parameter; `none` marks fuel exhaustion and is never the subject of a
  claim.
* The container runtime is an explicit parameter: a time-indexed function
  from inspection instant to inspection result.
* Go maps with string keys are embedded as association lists; Go map
  iteration order is arbitrary, so any claim settled here about an
  association-list order is only stated up to properties that do not
  depend on that order.
-/

/-- Equality of `Except` results is decidable when both component types
have decidable equality (used to evaluate the model on concrete inputs). -/
instance {e a : Type} [DecidableEq e] [DecidableEq a] : DecidableEq (Except e a) := fun x y =>
  match x, y with
  | .ok u, .ok v => if h : u = v then .isTrue (by rw [h]) else .isFalse (by simp [h])
  | .error u, .error v => if h : u = v then .isTrue (by rw [h]) else .isFalse (by simp [h])
  | .ok _, .error _ => .isFalse (by simp)
  | .error _, .ok _ => .isFalse (by simp)

/-- `inspectPollInterval` from `internal/pkg/cli/helpers/helper.go`:
`10 * time.Second`, in seconds. -/
def inspectPollInterval : Int := 10

/-- `extraContainerReadinessTimeout` from `create.go`: `5 * time.Minute`,
in seconds. -/
def extraContainerReadinessTimeout : Int := 300

/-- `containerCreationTimeout` from `create.go`: `10 * time.Minute`,
in seconds. -/
def containerCreationTimeout : Int := 600

/-- Modelled from the spec: the runtime's healthy sentinel
(`constants.Ready`; the `constants` package is not under src/, but the
sibling `internal/pkg/bootstrap/podman/helper.go` declares
`Ready HealthStatus = "healthy"`). -/
def readySentinel : String := "healthy"

/-- Health portion of a container's inspected state
(`containerStatus.State.Health` in `helper.go`; `none` models the nil
pointer: no health check reporting). -/
structure HealthState where
  status : String
deriving DecidableEq

/-- Declared health-check configuration (`Config.Healthcheck`);
`startPeriod` in seconds. -/
structure HealthcheckConfig where
  startPeriod : Int
deriving DecidableEq

/-- Container configuration (`containerStats.Config`); `healthcheck = none`
models a nil `Config.Healthcheck`. -/
structure ContainerConfig where
  healthcheck : Option HealthcheckConfig
deriving DecidableEq

/-- Runtime state of a container (`State.Health`). -/
structure ContainerState where
  health : Option HealthState
deriving DecidableEq

/-- Result of `runtime.InspectContainer` (`define.InspectContainerData`),
restricted to the fields the modelled code reads. `config = none` models a
nil `Config`. -/
structure InspectContainerData where
  name : String
  state : ContainerState
  config : Option ContainerConfig
deriving DecidableEq

/-- Result of `runtime.InspectPod`, restricted to the fields the modelled
code reads; `containers` holds the container ids of the pod. -/
structure PodInfo where
  name : String
  id : String
  containers : List String
deriving DecidableEq

/-- Outcome of one of the two wait helpers in
`internal/pkg/cli/helpers/helper.go`: success, a propagated inspection
error, or the deadline elapsing. -/
inductive WaitResult where
  | ok
  | inspectError (msg : String)
  | timeout
deriving DecidableEq

/-- Loop body of `helpers.WaitForContainerReadiness`, with the poll
interval kept as a parameter. `inspect` maps an inspection instant (in
seconds since the call) to the inspection result; `i` is the poll index,
so the i-th inspection happens at `i * interval`; the deadline test is
Go's `time.Now().After(deadline)` with `deadline = timeout`. The second
component of the result counts the inspections this invocation performed. -/
def waitReadinessLoop (inspect : Int → Except String InspectContainerData)
    (interval timeout : Int) : Nat → Nat → Option (WaitResult × Nat)
  | 0, _ => none
  | fuel + 1, i =>
    match inspect (i * interval) with
    | .error e => some (.inspectError e, 1)
    | .ok st =>
      match st.state.health with
      | none => some (.ok, 1)
      | some h =>
        if h.status = readySentinel then some (.ok, 1)
        else if (i * interval : Int) > timeout then some (.timeout, 1)
        else (waitReadinessLoop inspect interval timeout fuel (i + 1)).map
          (fun r => (r.1, r.2 + 1))

/-- `helpers.WaitForContainerReadiness`: the readiness loop at the fixed
source interval `inspectPollInterval` (10s), starting at poll index 0. -/
def waitForContainerReadiness (inspect : Int → Except String InspectContainerData)
    (timeout : Int) (fuel : Nat) : Option (WaitResult × Nat) :=
  waitReadinessLoop inspect inspectPollInterval timeout fuel 0

/-- Loop body of `helpers.WaitForContainersCreation`, with the poll
interval kept as a parameter. Success requires the observed container
count to equal `expectedContainerCount + 1` (the `+ 1` for podman's
implicit infra container is written inside this helper in the source). -/
def waitCreationLoop (inspectPod : Int → Except String PodInfo)
    (expectedContainerCount : Nat) (interval timeout : Int) :
    Nat → Nat → Option (WaitResult × Nat)
  | 0, _ => none
  | fuel + 1, i =>
    match inspectPod (i * interval) with
    | .error e => some (.inspectError e, 1)
    | .ok p =>
      if p.containers.length = expectedContainerCount + 1 then some (.ok, 1)
      else if (i * interval : Int) > timeout then some (.timeout, 1)
      else (waitCreationLoop inspectPod expectedContainerCount interval timeout fuel (i + 1)).map
        (fun r => (r.1, r.2 + 1))

/-- `helpers.WaitForContainersCreation`: the creation loop at the fixed
source interval `inspectPollInterval` (10s), starting at poll index 0. -/
def waitForContainersCreation (inspectPod : Int → Except String PodInfo)
    (expectedContainerCount : Nat) (timeout : Int) (fuel : Nat) :
    Option (WaitResult × Nat) :=
  waitCreationLoop inspectPod expectedContainerCount inspectPollInterval timeout fuel 0

/-- Pod spec (`models.PodSpec`), restricted to the fields the modelled
code reads: name, annotations (association list, see header note on Go
maps), and the declared container names. -/
structure PodSpec where
  name : String
  annotations : List (String × String)
  containerNames : List String
deriving DecidableEq

/-- `specs.FetchContainerNames` (accessor; the `specs` package is not
under src/ - modelled from the spec: `expectedContainerCount` is "derived
from the rendered manifest" as the declared container names). -/
def fetchContainerNames (spec : PodSpec) : List String :=
  spec.containerNames

/-- `doContainersCreationCheck` from `create.go`: the expected count
passed to the wait helper is the declared container count, with no offset
added by this caller. -/
def doContainersCreationCheck (inspectPod : Int → Except String PodInfo)
    (podSpec : PodSpec) (fuel : Nat) : Option (WaitResult × Nat) :=
  waitForContainersCreation inspectPod (fetchContainerNames podSpec).length
    containerCreationTimeout fuel

/-- `helpers.FetchContainerStartPeriod` applied to an already-obtained
inspection result: `-1` when no `Config.Healthcheck` is declared, else the
declared start period. -/
def fetchContainerStartPeriod (d : InspectContainerData) : Int :=
  match d.config with
  | none => -1
  | some cfg =>
    match cfg.healthcheck with
    | none => -1
    | some hc => hc.startPeriod

/-- `doContainerReadinessCheck` from `create.go`: inspect the container
(the source inspects twice - once directly and once inside
`FetchContainerStartPeriod` - both at the call instant, so one match
suffices); when no health check is declared (`startPeriod = -1`) return
success without entering the readiness loop (0 health polls); otherwise
wait with budget `startPeriod + extraContainerReadinessTimeout`. -/
def doContainerReadinessCheck (inspect : Int → Except String InspectContainerData)
    (fuel : Nat) : Option (WaitResult × Nat) :=
  match inspect 0 with
  | .error e => some (.inspectError e, 0)
  | .ok d =>
    let sp := fetchContainerStartPeriod d
    if sp = -1 then some (.ok, 0)
    else waitForContainerReadiness inspect (sp + extraContainerReadinessTimeout) fuel

/-- The error sentinel of a failed reservation (spec section 4.1). -/
def insufficientResourcesMsg : String := "InsufficientResources"

/-- Modelled from the spec: `utils.JoinAndRemove` - the `utils` package is
not under src/, only its call site in `returnEnvParamsForPod` is. Spec
section 4.1, `reserve(count)`: a count of 0 succeeds with an empty
allocation without touching the pool; a count exceeding the currently
available resources fails with `InsufficientResources` and reserves
nothing; otherwise the returned resources are removed from the pool
before the call returns. Returns the reserved identifiers and the
remaining pool. -/
def reserve (pool : List String) (count : Nat) : Except String (List String × List String) :=
  if count = 0 then .ok ([], pool)
  else if count ≤ pool.length then .ok (pool.take count, pool.drop count)
  else .error insufficientResourcesMsg

/-- One reservation in a serialized sequence (the source serializes all
pool mutations under `envMutex`): on failure nothing is handed out and the
pool is unchanged. -/
def reserveStep (pool : List String) (count : Nat) : Option (List String) × List String :=
  match reserve pool count with
  | .ok r => (some r.1, r.2)
  | .error _ => (none, pool)

/-- A whole deployment attempt's sequence of reservations against the
shared pool, in the order the mutex serialized them: for each demanded
count, the identifiers handed out (or `none` on failure) and the final
pool. -/
def runReservations (pool : List String) : List Nat → List (Option (List String)) × List String
  | [] => ([], pool)
  | c :: cs =>
    let s := reserveStep pool c
    let rest := runReservations s.2 cs
    (s.1 :: rest.1, rest.2)

/-- Modelled from the spec: `vars.SpyreCardAnnotationRegex` is not under
src/. The demand is found "by scanning its annotations for a
resource-count pattern keyed per internal container name"
(spec section 4.3); the pattern is modelled as the key form
`spyre-card/<containerName>`, the submatch as stripping that marker. -/
def spyreCardKeyMarker : String := "spyre-card/"

/-- The `isSpyreCardAnnotation` closure of
`fetchSpyreCardsFromPodAnnotations`: the container name extracted from a
matching annotation key, or `none`. -/
def isSpyreCardKey (key : String) : Option String :=
  if spyreCardKeyMarker.data.isPrefixOf key.data then
    some (String.mk (key.data.drop spyreCardKeyMarker.data.length))
  else none

/-- The value of a decimal digit character, `none` otherwise. -/
def digitVal (c : Char) : Option Nat :=
  if '0' ≤ c ∧ c ≤ '9' then some (c.toNat - '0'.toNat) else none

/-- Decimal digits to a number, most significant first. -/
def digitsToNat (acc : Nat) : List Char → Option Nat
  | [] => some acc
  | c :: rest =>
    match digitVal c with
    | none => none
    | some d => digitsToNat (acc * 10 + d) rest

/-- Go `strconv.Atoi` (modelled): an optional sign followed by at least
one decimal digit. -/
def atoi (s : String) : Option Int :=
  match s.data with
  | [] => none
  | c :: rest =>
    if c = '-' then
      if rest = [] then none else (digitsToNat 0 rest).map (fun n => -(n : Int))
    else if c = '+' then
      if rest = [] then none else (digitsToNat 0 rest).map (fun n => (n : Int))
    else (digitsToNat 0 (c :: rest)).map (fun n => (n : Int))

/-- `fetchSpyreCardsFromPodAnnotations` from `create.go`: total spyre-card
demand of a pod and the per-container counts, read from the matching
annotation entries; a value that is not an integer (Go `strconv.Atoi`) is
an error. -/
def fetchSpyreCardsFromPodAnnotations :
    List (String × String) → Except String (Int × List (String × Int))
  | [] => .ok (0, [])
  | (k, v) :: rest =>
    match isSpyreCardKey k with
    | none => fetchSpyreCardsFromPodAnnotations rest
    | some containerName =>
      match atoi v with
      | none => .error ("failed to convert to int. Provided val: " ++ v ++ " is not of int type")
      | some n =>
        match fetchSpyreCardsFromPodAnnotations rest with
        | .error e => .error e
        | .ok r => .ok (r.1 + n, (containerName, n) :: r.2)

/-- The `envMutex`-guarded loop of `returnEnvParamsForPod`: for each
container with a non-zero spyre count, reserve that many identifiers from
the shared pool (via the spec-modelled `reserve`; the source joins them
with a blank into the env value). Negative counts fall outside the spec's
`count >= 0` input contract and are clamped by `Int.toNat`. -/
def allocForContainers (pool : List String) :
    List (String × Int) → Except String (List (String × String) × List String)
  | [] => .ok ([], pool)
  | (c, n) :: rest =>
    if n ≠ 0 then
      match reserve pool n.toNat with
      | .error e => .error e
      | .ok r =>
        match allocForContainers r.2 rest with
        | .error e => .error e
        | .ok rec => .ok ((c, String.intercalate " " r.1) :: rec.1, rec.2)
    else allocForContainers pool rest

/-- `returnEnvParamsForPod` from `create.go`: an env entry per container
with a spyre demand (the PCI-address binding), consuming the shared pool;
a pod with zero total demand leaves the pool untouched. Returns the env
bindings and the remaining pool. -/
def returnEnvParamsForPod (podSpec : PodSpec) (pool : List String) :
    Except String (List (String × String) × List String) :=
  match fetchSpyreCardsFromPodAnnotations podSpec.annotations with
  | .error e => .error e
  | .ok r =>
    if r.1 = 0 then .ok ([], pool)
    else allocForContainers pool r.2

/-- `utils.FlattenArray` (the `utils` package is not under src/ - modelled
from the spec: the flattening of the layers' name lists into one list). -/
def flattenArray (xss : List (List String)) : List String := xss.flatten

/-- `verifyPodTemplateExists` from `create.go`: the flattened
`podTemplateExecutions` must have as many entries as there are loaded pod
templates, and every entry must name a loaded template. `tmplNames` stands
for the key set of the `tmpls` map (hence duplicate-free in use). -/
def verifyPodTemplateExists (tmplNames : List String)
    (podTemplateExecutions : List (List String)) : Except String Unit :=
  let flat := flattenArray podTemplateExecutions
  if flat.length ≠ tmplNames.length then
    .error "number of values specified in podTemplateExecutions under metadata.yml is mismatched"
  else if flat.all (fun t => t ∈ tmplNames) then .ok ()
  else .error "value specified in podTemplateExecutions under metadata.yml is invalid"

/-- `validateSpyreCardRequirements` from `create.go`. -/
def validateSpyreCardRequirements (req actual : Int) : Except String Unit :=
  if actual < req then
    .error ("insufficient spyre cards. Require: " ++ toString req ++ " spyre cards to proceed")
  else .ok ()

/-- `calculateReqSpyreCards` from `create.go`: total demand over the pod
templates whose pod does not already exist (`client.PodExists`, modelled
by membership of the pod name in `existing`); template-load and
annotation-parse failures propagate. `specOf` abstracts `fetchPodSpec`. -/
def calculateReqSpyreCards (specOf : String → Except String PodSpec)
    (existing : List String) : List String → Except String Int
  | [] => .ok 0
  | n :: rest =>
    match specOf n with
    | .error e => .error e
    | .ok spec =>
      if spec.name ∈ existing then calculateReqSpyreCards specOf existing rest
      else
        match fetchSpyreCardsFromPodAnnotations spec.annotations with
        | .error e => .error e
        | .ok r =>
          match calculateReqSpyreCards specOf existing rest with
          | .error e => .error e
          | .ok s => .ok (r.1 + s)

/-- Overall outcome of the modelled `createCmd.RunE` slice. -/
inductive CreateOutcome where
  | earlyError (msg : String)
  | alreadyDeployed
  | deployRan (result : Option String)
deriving DecidableEq

/-- The resource-relevant slice of `createCmd.RunE` from `create.go`,
from pod-template verification to the deployment fan-out; the steps
between that submit no manifests (bootstrap validation, SMT setup, image
and model downloads) are elided. `deployAll` abstracts
`executePodTemplates`: given the discovered pool it returns the number of
manifests submitted to the runtime and the overall result. The free-card
discovery (`helpers.FindFreeSpyreCards`) runs only when the demand is
positive, exactly as in the source. The second component of the result is
the total number of manifests submitted. -/
def createRun (specOf : String → Except String PodSpec)
    (tmplNames : List String) (podTemplateExecutions : List (List String))
    (existing : List String) (freeCards : List String)
    (deployAll : List String → Nat × Option String) : CreateOutcome × Nat :=
  match verifyPodTemplateExists tmplNames podTemplateExecutions with
  | .error e => (.earlyError e, 0)
  | .ok _ =>
    if existing.length = tmplNames.length then (.alreadyDeployed, 0)
    else
      match calculateReqSpyreCards specOf existing tmplNames with
      | .error e => (.earlyError e, 0)
      | .ok req =>
        if 0 < req then
          match validateSpyreCardRequirements req freeCards.length with
          | .error e => (.earlyError e, 0)
          | .ok _ =>
            let d := deployAll freeCards
            (.deployRan d.2, d.1)
        else
          let d := deployAll []
          (.deployRan d.2, d.1)

/-- The errors a layer collects through its buffered channel, each wrapped
with the 1-based layer index as in the source
(`fmt.Errorf("layer %d: %w", i+1, e)`); the source then joins them with
`errors.Join`. `execUnit` abstracts one unit's `executePodTemplateLayer`
task: `none` on success, `some err` on failure. -/
def layerErrors (execUnit : String → Option String) (idx : Nat) (layer : List String) :
    List String :=
  layer.filterMap (fun u => (execUnit u).map (fun e => "layer " ++ toString idx ++ ": " ++ e))

/-- `executePodTemplates` from `create.go`: layers run strictly in order;
within a layer one task per pod template runs to completion (fail-slow:
the embedding evaluates `execUnit` on every member of the layer before
the layer closes); after the join, a non-empty error collection aborts
the remaining layers. Returns the tasks started, in order, and `none` on
success or `some (k, errs)` with `k` the 1-based failing layer index. -/
def executePodTemplates (execUnit : String → Option String) :
    List (List String) → Nat → List String × Option (Nat × List String)
  | [], _ => ([], none)
  | layer :: rest, i =>
    let errs := layerErrors execUnit (i + 1) layer
    if errs.isEmpty then
      let r := executePodTemplates execUnit rest (i + 1)
      (layer ++ r.1, r.2)
    else (layer, some (i + 1, errs))

/-- Per-unit deployment outcome (spec section 3, `DeploymentOutcome`). -/
inductive Outcome where
  | skipped
  | deployed
  | failed (e : String)
deriving DecidableEq

/-- Result of one unit's deployment task, instrumented with the number of
calls made to the manifest-render collaborator and to the runtime-submit
collaborator, and the pool left behind. -/
structure LayerStepResult where
  outcome : Outcome
  renderCalls : Nat
  submitCalls : Nat
  pool : List String
deriving DecidableEq

/-- `executePodTemplateLayer` from `create.go`, instrumented. `fetch`
abstracts `fetchPodSpec` (a template-provider load, not a manifest
render); `render` abstracts `podTemplate.Execute`, the manifest-render
collaborator; `deploy` abstracts `deployPodAndReadinessCheck`, whose
first step `podman.RunPodmanKubePlay` is the runtime-submit collaborator.
A pod whose name is in `existingPods` is skipped before env resolution,
rendering and submission. (On an env error the Go pool pointer may
already be partially advanced; no claim concerns that path's pool, which
is returned unchanged here.) -/
def executePodTemplateLayer (fetch : String → Except String PodSpec)
    (render : String → Except String String)
    (deploy : String → Except String Unit)
    (existingPods : List String) (pool : List String)
    (podTemplateName : String) : LayerStepResult :=
  match fetch podTemplateName with
  | .error e => ⟨.failed e, 0, 0, pool⟩
  | .ok spec =>
    if spec.name ∈ existingPods then ⟨.skipped, 0, 0, pool⟩
    else
      match returnEnvParamsForPod spec pool with
      | .error e => ⟨.failed e, 0, 0, pool⟩
      | .ok r =>
        match render podTemplateName with
        | .error e => ⟨.failed e, 1, 0, r.2⟩
        | .ok manifest =>
          match deploy manifest with
          | .error e => ⟨.failed e, 1, 1, r.2⟩
          | .ok _ => ⟨.deployed, 1, 1, r.2⟩

/-- Go `unicode.IsSpace` restricted to the ASCII whitespace that
`strings.TrimSpace` trims in the modelled strings. -/
def isSpaceChar (c : Char) : Bool :=
  c == ' ' || c == '\t' || c == '\n' || c == '\r'

/-- Go `strings.TrimSpace` on a character list. -/
def trimSpace (s : List Char) : List Char :=
  ((s.dropWhile isSpaceChar).reverse.dropWhile isSpaceChar).reverse

/-- Go `strings.Split(s, ",")` (and `strings.SplitSeq`): split on the
comma character; splitting the empty string yields one empty piece. -/
def splitComma : List Char → List (List Char)
  | [] => [[]]
  | c :: rest =>
    if c = ',' then [] :: splitComma rest
    else
      match splitComma rest with
      | [] => [[c]]
      | h :: t => (c :: h) :: t

/-- One iteration of `fetchHostPortMappingFromAnnotation`'s loop over the
comma-separated pieces: trim; skip an empty piece; with no colon the whole
piece is the container port and the host port is empty; otherwise the host
port is the trimmed text before the first colon and the container port the
trimmed text after it, an empty container port dropping the piece.
Returns (containerPort, hostPort). -/
def parsePortEntry (p0 : List Char) : Option (List Char × List Char) :=
  let p := trimSpace p0
  if p = [] then none
  else
    let before := p.takeWhile (fun c => c ≠ ':')
    match p.dropWhile (fun c => c ≠ ':') with
    | [] => some (p, [])
    | _ :: after =>
      let hostPort := trimSpace before
      let containerPort := trimSpace after
      if containerPort = [] then none
      else some (containerPort, hostPort)

/-- Go map assignment `m[k] = v` on an association list: overwrite an
existing binding in place, else append. -/
def assocInsert (m : List (List Char × List Char)) (k v : List Char) :
    List (List Char × List Char) :=
  if m.any (fun kv => kv.1 = k) then
    m.map (fun kv => if kv.1 = k then (k, v) else kv)
  else m ++ [(k, v)]

/-- `fetchHostPortMappingFromAnnotation` from `create.go`, applied to the
raw value of the ports annotation: the mapping container port to host
port, with later entries overwriting earlier ones as in a Go map. -/
def fetchHostPortMapping (portMappings : List Char) : List (List Char × List Char) :=
  (splitComma portMappings).foldl
    (fun m p =>
      match parsePortEntry p with
      | none => m
      | some e => assocInsert m e.1 e.2) []

/-- The publish-building loop of `constructPodDeployOptions` from
`create.go`: per mapping entry, nothing for the sentinel host port "0",
`hostPort:containerPort` for an explicit host port, the bare container
port for an empty one. -/
def publishPieces (m : List (List Char × List Char)) : List (List Char) :=
  m.filterMap (fun kv =>
    if kv.2 = ['0'] then none
    else if kv.2 ≠ [] then some (kv.2 ++ [':'] ++ kv.1)
    else some kv.1)

/-- The accumulated `publish` option string of
`constructPodDeployOptions`: each piece followed by a comma. -/
def publishOptionString (m : List (List Char × List Char)) : List Char :=
  ((publishPieces m).map (fun e => e ++ [','])).flatten

/-- The publish handling of `buildCmdArgs` from
`internal/pkg/runtime/podman/podman.go`: split the publish option on
commas and emit one `--publish=<piece>` argument per non-empty piece
(only the pieces are modelled; the flag text is constant). -/
def publishArgs (publish : List Char) : List (List Char) :=
  (splitComma publish).filter (fun p => p ≠ [])

/-- The publish set as the spec's words state it (claim C9): for each
entry of the port mapping, exactly one `hostPort:containerPort` piece
when the host port is explicit, one bare container-port piece when the
host port is empty, and no piece at all for the sentinel "0". -/
def specPublishSet (m : List (List Char × List Char)) : List (List Char) :=
  m.filterMap (fun kv =>
    if kv.2 = ['0'] then none
    else if kv.2 = [] then some kv.1
    else some (kv.2 ++ [':'] ++ kv.1))

/-- Demonstration pod with exactly two containers. -/
def demoPodTwo : PodInfo := ⟨"demo-pod", "id0", ["c1", "c2"]⟩

/-- Constant pod-inspection trace returning `demoPodTwo`. -/
def demoPodInspect : Int → Except String PodInfo := fun _ => .ok demoPodTwo

/-- Demonstration container with no health check declared. -/
def demoNoHealth : InspectContainerData := ⟨"c-none", ⟨none⟩, none⟩

/-- Demonstration container declared healthy, health check with start
period 7. -/
def demoHealthy : InspectContainerData :=
  ⟨"c-healthy", ⟨some ⟨"healthy"⟩⟩, some ⟨some ⟨7⟩⟩⟩

/-- Demonstration container with a declared health check (start period 0)
whose status is still starting. -/
def demoStarting : InspectContainerData :=
  ⟨"c-start", ⟨some ⟨"starting"⟩⟩, some ⟨some ⟨0⟩⟩⟩

/-- Time-indexed demonstration trace: the container reports healthy
exactly in the window from 2 to 9 seconds after the call. -/
def demoWindowTrace : Int → Except String InspectContainerData := fun t =>
  if 2 ≤ t ∧ t ≤ 9 then .ok ⟨"c-win", ⟨some ⟨"healthy"⟩⟩, some ⟨some ⟨0⟩⟩⟩
  else .ok ⟨"c-win", ⟨some ⟨"starting"⟩⟩, some ⟨some ⟨0⟩⟩⟩

/-- Demonstration execution plan: three layers, the middle one of width
two. -/
def demoPlan : List (List String) := [["a"], ["b", "c"], ["d"]]

/-- Demonstration unit behavior: unit b fails, all others succeed. -/
def demoExecUnit : String → Option String := fun u =>
  if u = "b" then some "boom" else none

/-- Demonstration pod spec named p1 demanding two spyre cards for its
container. -/
def demoSpec : PodSpec := ⟨"p1", [("spyre-card/c", "2")], ["c"]⟩

/-- Demonstration ports annotation exercising every branch: explicit host
port, ephemeral host port (leading colon and bare port), dropped entry
with empty container port, container port 0 with explicit host, and the
do-not-expose sentinel host port 0. -/
def demoPortsValue : List Char := "8000:3000, :3001,9000:0,3002:,3003,0:5000".data

/-- A readiness poll that finds no health reporting succeeds at once. -/
theorem readinessLoop_ok_of_none (inspect : Int → Except String InspectContainerData)
    (interval timeout : Int) (fuel i : Nat) (st : InspectContainerData)
    (hins : inspect ((i : Int) * interval) = .ok st) (hh : st.state.health = none) :
    waitReadinessLoop inspect interval timeout (fuel + 1) i = some (.ok, 1) := by
  simp [waitReadinessLoop, hins, hh]

/-- A readiness poll that observes the healthy sentinel succeeds at once. -/
theorem readinessLoop_ok_of_healthy (inspect : Int → Except String InspectContainerData)
    (interval timeout : Int) (fuel i : Nat) (st : InspectContainerData) (hs : HealthState)
    (hins : inspect ((i : Int) * interval) = .ok st) (hh : st.state.health = some hs)
    (hr : hs.status = readySentinel) :
    waitReadinessLoop inspect interval timeout (fuel + 1) i = some (.ok, 1) := by
  simp [waitReadinessLoop, hins, hh, hr]

/-- A creation poll that observes the expected count succeeds at once. -/
theorem creationLoop_ok_of_count (inspectPod : Int → Except String PodInfo)
    (n : Nat) (interval timeout : Int) (fuel i : Nat) (p : PodInfo)
    (hins : inspectPod ((i : Int) * interval) = .ok p)
    (hc : p.containers.length = n + 1) :
    waitCreationLoop inspectPod n interval timeout (fuel + 1) i = some (.ok, 1) := by
  simp [waitCreationLoop, hins, hc]

/-- A readiness Timeout implies the first inspection of the run observed a
declared health status different from the healthy sentinel. -/
theorem readinessLoop_timeout_first (inspect : Int → Except String InspectContainerData)
    (interval timeout : Int) (fuel i m : Nat)
    (h : waitReadinessLoop inspect interval timeout fuel i = some (.timeout, m)) :
    ∃ st hs, inspect ((i : Int) * interval) = .ok st ∧ st.state.health = some hs ∧
      hs.status ≠ readySentinel := by
  cases fuel with
  | zero => simp [waitReadinessLoop] at h
  | succ fuel =>
    cases hins : inspect ((i : Int) * interval) with
    | error e => simp [waitReadinessLoop, hins] at h
    | ok st =>
      cases hh : st.state.health with
      | none => simp [waitReadinessLoop, hins, hh] at h
      | some hs =>
        by_cases hr : hs.status = readySentinel
        · simp [waitReadinessLoop, hins, hh, hr] at h
        · exact ⟨st, hs, rfl, hh, hr⟩

/-- A creation Timeout implies the first inspection of the run observed a
container count different from the expected one. -/
theorem creationLoop_timeout_first (inspectPod : Int → Except String PodInfo)
    (n : Nat) (interval timeout : Int) (fuel i m : Nat)
    (h : waitCreationLoop inspectPod n interval timeout fuel i = some (.timeout, m)) :
    ∃ p, inspectPod ((i : Int) * interval) = .ok p ∧ p.containers.length ≠ n + 1 := by
  cases fuel with
  | zero => simp [waitCreationLoop] at h
  | succ fuel =>
    cases hins : inspectPod ((i : Int) * interval) with
    | error e => simp [waitCreationLoop, hins] at h
    | ok p =>
      by_cases hc : p.containers.length = n + 1
      · simp [waitCreationLoop, hins, hc] at h
      · exact ⟨p, rfl, hc⟩

/-- A readiness Timeout happens only once the deadline has elapsed at the
polling cadence: some poll index j past the budget was reached, and every
poll from the start of the run through j observed a declared health status
different from the healthy sentinel. -/
theorem readinessLoop_timeout_elapsed (inspect : Int → Except String InspectContainerData)
    (interval timeout : Int) :
    ∀ (fuel i m : Nat),
      waitReadinessLoop inspect interval timeout fuel i = some (.timeout, m) →
      ∃ j, i ≤ j ∧ ((j : Int) * interval) > timeout ∧
        ∀ k, i ≤ k → k ≤ j →
          ∃ st hs, inspect ((k : Int) * interval) = .ok st ∧
            st.state.health = some hs ∧ hs.status ≠ readySentinel := by
  intro fuel
  induction fuel with
  | zero => intro i m h; simp [waitReadinessLoop] at h
  | succ fuel ih =>
    intro i m h
    cases hins : inspect ((i : Int) * interval) with
    | error e => simp [waitReadinessLoop, hins] at h
    | ok st =>
      cases hh : st.state.health with
      | none => simp [waitReadinessLoop, hins, hh] at h
      | some hs =>
        by_cases hr : hs.status = readySentinel
        · simp [waitReadinessLoop, hins, hh, hr] at h
        · by_cases hd : ((i : Int) * interval) > timeout
          · refine ⟨i, le_refl i, hd, fun k hik hki => ?_⟩
            have hk : k = i := le_antisymm hki hik
            subst hk
            exact ⟨st, hs, hins, hh, hr⟩
          · have hrec : ∃ r2, waitReadinessLoop inspect interval timeout fuel (i + 1) =
                some (.timeout, r2) := by
              simp only [waitReadinessLoop, hins, hh, if_neg hr, if_neg hd] at h
              rcases Option.map_eq_some'.mp h with ⟨r, hrecr, hmapr⟩
              rcases r with ⟨r1, r2⟩
              have h1 : r1 = .timeout := (Prod.mk.injEq _ _ _ _ ▸ hmapr).1
              exact ⟨r2, h1 ▸ hrecr⟩
            rcases hrec with ⟨r2, hrec⟩
            rcases ih (i + 1) r2 hrec with ⟨j, hij, hjd, hall⟩
            refine ⟨j, le_trans (Nat.le_succ i) hij, hjd, fun k hik hkj => ?_⟩
            rcases Nat.lt_or_ge k (i + 1) with hk | hk
            · have hk : k = i := le_antisymm (Nat.lt_succ_iff.mp hk) hik
              subst hk
              exact ⟨st, hs, hins, hh, hr⟩
            · exact hall k hk hkj

/-- A creation Timeout happens only once the deadline has elapsed at the
polling cadence: some poll index j past the budget was reached, and every
poll from the start of the run through j observed a container count
different from the expected one. -/
theorem creationLoop_timeout_elapsed (inspectPod : Int → Except String PodInfo)
    (n : Nat) (interval timeout : Int) :
    ∀ (fuel i m : Nat),
      waitCreationLoop inspectPod n interval timeout fuel i = some (.timeout, m) →
      ∃ j, i ≤ j ∧ ((j : Int) * interval) > timeout ∧
        ∀ k, i ≤ k → k ≤ j →
          ∃ p, inspectPod ((k : Int) * interval) = .ok p ∧
            p.containers.length ≠ n + 1 := by
  intro fuel
  induction fuel with
  | zero => intro i m h; simp [waitCreationLoop] at h
  | succ fuel ih =>
    intro i m h
    cases hins : inspectPod ((i : Int) * interval) with
    | error e => simp [waitCreationLoop, hins] at h
    | ok p =>
      by_cases hc : p.containers.length = n + 1
      · simp [waitCreationLoop, hins, hc] at h
      · by_cases hd : ((i : Int) * interval) > timeout
        · refine ⟨i, le_refl i, hd, fun k hik hki => ?_⟩
          have hk : k = i := le_antisymm hki hik
          subst hk
          exact ⟨p, hins, hc⟩
        · have hrec : ∃ r2, waitCreationLoop inspectPod n interval timeout fuel (i + 1) =
              some (.timeout, r2) := by
            simp only [waitCreationLoop, hins, if_neg hc, if_neg hd] at h
            rcases Option.map_eq_some'.mp h with ⟨r, hrecr, hmapr⟩
            rcases r with ⟨r1, r2⟩
            have h1 : r1 = .timeout := (Prod.mk.injEq _ _ _ _ ▸ hmapr).1
            exact ⟨r2, h1 ▸ hrecr⟩
          rcases hrec with ⟨r2, hrec⟩
          rcases ih (i + 1) r2 hrec with ⟨j, hij, hjd, hall⟩
          refine ⟨j, le_trans (Nat.le_succ i) hij, hjd, fun k hik hkj => ?_⟩
          rcases Nat.lt_or_ge k (i + 1) with hk | hk
          · have hk : k = i := le_antisymm (Nat.lt_succ_iff.mp hk) hik
            subst hk
            exact ⟨p, hins, hc⟩
          · exact hall k hk hkj

/-- A creation success implies some poll observed exactly the expected
container count. -/
theorem creationLoop_ok_observed (inspectPod : Int → Except String PodInfo)
    (n : Nat) (interval timeout : Int) :
    ∀ (fuel i m : Nat),
      waitCreationLoop inspectPod n interval timeout fuel i = some (.ok, m) →
      ∃ j p, i ≤ j ∧ inspectPod ((j : Int) * interval) = .ok p ∧
        p.containers.length = n + 1 := by
  intro fuel
  induction fuel with
  | zero => intro i m h; simp [waitCreationLoop] at h
  | succ fuel ih =>
    intro i m h
    cases hins : inspectPod ((i : Int) * interval) with
    | error e => simp [waitCreationLoop, hins] at h
    | ok p =>
      by_cases hc : p.containers.length = n + 1
      · exact ⟨i, p, le_refl i, hins, hc⟩
      · by_cases hd : ((i : Int) * interval) > timeout
        · simp [waitCreationLoop, hins, hc, hd] at h
        · have hrec : ∃ r2, waitCreationLoop inspectPod n interval timeout fuel (i + 1) =
              some (.ok, r2) := by
            simp only [waitCreationLoop, hins, if_neg hc, if_neg hd] at h
            rcases Option.map_eq_some'.mp h with ⟨r, hrecr, hmapr⟩
            rcases r with ⟨r1, r2⟩
            have h1 : r1 = .ok := (Prod.mk.injEq _ _ _ _ ▸ hmapr).1
            exact ⟨r2, h1 ▸ hrecr⟩
          rcases hrec with ⟨r2, hrec⟩
          rcases ih (i + 1) r2 hrec with ⟨j, p2, hij, hinsj, hcj⟩
          exact ⟨j, p2, le_trans (Nat.le_succ i) hij, hinsj, hcj⟩

/-- C10: Both readiness waits perform an inspection before first checking
their deadline: for every timeout value, including zero or a negative
duration, a call whose success condition already holds at the first
inspection (expected container count already reached, health already at
the healthy sentinel, or no health reporting present) returns success
rather than Timeout, and a Timeout error is only ever returned after at
least one inspection observed the condition unmet. -/
theorem c10_inspect_before_deadline :
    (∀ (inspect : Int → Except String InspectContainerData) (timeout : Int) (fuel : Nat)
        (st : InspectContainerData), inspect 0 = .ok st → st.state.health = none →
        waitForContainerReadiness inspect timeout (fuel + 1) = some (.ok, 1)) ∧
    (∀ (inspect : Int → Except String InspectContainerData) (timeout : Int) (fuel : Nat)
        (st : InspectContainerData) (hs : HealthState), inspect 0 = .ok st →
        st.state.health = some hs → hs.status = readySentinel →
        waitForContainerReadiness inspect timeout (fuel + 1) = some (.ok, 1)) ∧
    (∀ (inspectPod : Int → Except String PodInfo) (n : Nat) (timeout : Int) (fuel : Nat)
        (p : PodInfo), inspectPod 0 = .ok p → p.containers.length = n + 1 →
        waitForContainersCreation inspectPod n timeout (fuel + 1) = some (.ok, 1)) ∧
    (∀ (inspect : Int → Except String InspectContainerData) (timeout : Int) (fuel m : Nat),
        waitForContainerReadiness inspect timeout fuel = some (.timeout, m) →
        ∃ st hs, inspect 0 = .ok st ∧ st.state.health = some hs ∧
          hs.status ≠ readySentinel) ∧
    (∀ (inspectPod : Int → Except String PodInfo) (n : Nat) (timeout : Int) (fuel m : Nat),
        waitForContainersCreation inspectPod n timeout fuel = some (.timeout, m) →
        ∃ p, inspectPod 0 = .ok p ∧ p.containers.length ≠ n + 1) := by
  refine ⟨?_, ?_, ?_, ?_, ?_⟩
  · intro inspect timeout fuel st h hh
    exact readinessLoop_ok_of_none inspect inspectPollInterval timeout fuel 0 st
      (by simpa using h) hh
  · intro inspect timeout fuel st hs h hh hr
    exact readinessLoop_ok_of_healthy inspect inspectPollInterval timeout fuel 0 st hs
      (by simpa using h) hh hr
  · intro inspectPod n timeout fuel p h hc
    exact creationLoop_ok_of_count inspectPod n inspectPollInterval timeout fuel 0 p
      (by simpa using h) hc
  · intro inspect timeout fuel m h
    rcases readinessLoop_timeout_first inspect inspectPollInterval timeout fuel 0 m h with
      ⟨st, hs, hins, hh, hr⟩
    exact ⟨st, hs, by simpa using hins, hh, hr⟩
  · intro inspectPod n timeout fuel m h
    rcases creationLoop_timeout_first inspectPod n inspectPollInterval timeout fuel 0 m h with
      ⟨p, hins, hc⟩
    exact ⟨p, by simpa using hins, hc⟩

/-- C10 witness: concrete calls with zero-progress deadlines. -/
theorem c10_witness :
    waitForContainerReadiness (fun _ => .ok demoNoHealth) (-5) 1 = some (.ok, 1) ∧
    waitForContainerReadiness (fun _ => .ok demoHealthy) (-5) 1 = some (.ok, 1) ∧
    waitForContainersCreation demoPodInspect 1 (-5) 1 = some (.ok, 1) ∧
    (∃ st hs, (fun _ => Except.ok demoStarting : Int → Except String InspectContainerData) 0
        = .ok st ∧ st.state.health = some hs ∧ hs.status ≠ readySentinel) ∧
    (∃ p, demoPodInspect 0 = .ok p ∧ p.containers.length ≠ 2 + 1) := by
  refine ⟨?_, ?_, ?_, ?_, ?_⟩
  · exact c10_inspect_before_deadline.1 _ (-5) 0 demoNoHealth rfl rfl
  · exact c10_inspect_before_deadline.2.1 _ (-5) 0 demoHealthy ⟨"healthy"⟩ rfl rfl rfl
  · exact c10_inspect_before_deadline.2.2.1 demoPodInspect 1 (-5) 0 demoPodTwo rfl rfl
  · exact c10_inspect_before_deadline.2.2.2.1 (fun _ => .ok demoStarting) (-1) 1 1 (by decide)
  · exact c10_inspect_before_deadline.2.2.2.2 demoPodInspect 2 (-1) 1 1 (by decide)

/-- C6 counterexample: the one-implicit-sidecar offset sits inside the
wait helper, not in the caller: against a pod that steadily reports
exactly expectedCount (2) containers, the wait never succeeds and returns
Timeout, while it succeeds at once when called with expectedCount 1
(observed = expectedCount + 1). -/
theorem c6_counterexample :
    demoPodInspect 0 = .ok demoPodTwo ∧ demoPodTwo.containers.length = 2 ∧
    waitForContainersCreation demoPodInspect 2 0 5 = some (.timeout, 2) ∧
    waitForContainersCreation demoPodInspect 1 0 5 = some (.ok, 1) := by
  refine ⟨rfl, rfl, by decide, by decide⟩

/-- C6 (amended): `WaitForContainersCreation` polls the runtime's pod
inspection at a fixed 10-second interval until the observed container
count equals `expectedCount + 1`; the one-implicit-sidecar offset is
added inside the wait helper itself, while the caller
`doContainersCreationCheck` passes the declared container count
unchanged; a Timeout error is returned only once the deadline has
elapsed with every poll up to that point observing a different count. -/
theorem c6_amended :
    (∀ (inspectPod : Int → Except String PodInfo) (podSpec : PodSpec) (fuel : Nat),
        doContainersCreationCheck inspectPod podSpec fuel =
          waitForContainersCreation inspectPod (fetchContainerNames podSpec).length
            containerCreationTimeout fuel) ∧
    inspectPollInterval = 10 ∧
    (∀ (inspectPod : Int → Except String PodInfo) (n : Nat) (timeout : Int) (fuel i : Nat)
        (p : PodInfo), inspectPod ((i : Int) * inspectPollInterval) = .ok p →
        p.containers.length = n + 1 →
        waitCreationLoop inspectPod n inspectPollInterval timeout (fuel + 1) i =
          some (.ok, 1)) ∧
    (∀ (inspectPod : Int → Except String PodInfo) (n : Nat) (timeout : Int) (fuel m : Nat),
        waitForContainersCreation inspectPod n timeout fuel = some (.ok, m) →
        ∃ (j : Nat) (p : PodInfo), inspectPod ((j : Int) * inspectPollInterval) = .ok p ∧
          p.containers.length = n + 1) ∧
    (∀ (inspectPod : Int → Except String PodInfo) (n : Nat) (timeout : Int) (fuel m : Nat),
        waitForContainersCreation inspectPod n timeout fuel = some (.timeout, m) →
        ∃ (j : Nat), ((j : Int) * inspectPollInterval) > timeout ∧
          ∀ (k : Nat), k ≤ j → ∃ p, inspectPod ((k : Int) * inspectPollInterval) = .ok p ∧
            p.containers.length ≠ n + 1) := by
  refine ⟨fun _ _ _ => rfl, rfl, ?_, ?_, ?_⟩
  · intro inspectPod n timeout fuel i p hins hc
    exact creationLoop_ok_of_count inspectPod n inspectPollInterval timeout fuel i p hins hc
  · intro inspectPod n timeout fuel m h
    rcases creationLoop_ok_observed inspectPod n inspectPollInterval timeout fuel 0 m h with
      ⟨j, p, _, hins, hc⟩
    exact ⟨j, p, hins, hc⟩
  · intro inspectPod n timeout fuel m h
    rcases creationLoop_timeout_elapsed inspectPod n inspectPollInterval timeout fuel 0 m h with
      ⟨j, _, hjd, hall⟩
    exact ⟨j, hjd, fun k hkj => hall k (Nat.zero_le k) hkj⟩

/-- C6 amended witness: concrete instantiations of every conjunct. -/
theorem c6_amended_witness :
    doContainersCreationCheck demoPodInspect demoSpec 3 =
      waitForContainersCreation demoPodInspect 1 containerCreationTimeout 3 ∧
    waitCreationLoop demoPodInspect 1 inspectPollInterval (-5) 1 0 = some (.ok, 1) ∧
    (∃ (j : Nat) (p : PodInfo), demoPodInspect ((j : Int) * inspectPollInterval) = .ok p ∧
        p.containers.length = 1 + 1) ∧
    (∃ (j : Nat), ((j : Int) * inspectPollInterval) > (-1 : Int) ∧
        ∀ (k : Nat), k ≤ j → ∃ p, demoPodInspect ((k : Int) * inspectPollInterval) = .ok p ∧
          p.containers.length ≠ 2 + 1) := by
  refine ⟨?_, ?_, ?_, ?_⟩
  · exact c6_amended.1 demoPodInspect demoSpec 3
  · exact c6_amended.2.2.1 demoPodInspect 1 (-5) 0 0 demoPodTwo rfl rfl
  · exact c6_amended.2.2.2.1 demoPodInspect 1 (-5) 1 1 (by decide)
  · exact c6_amended.2.2.2.2 demoPodInspect 2 (-1) 1 1 (by decide)

/-- C7 counterexample: the readiness poll interval in the source is 10
seconds, not 2: against a trace that reports healthy exactly during the
window from 2 to 9 seconds (start period 0), a 2-second cadence - the
claimed behavior - observes the healthy sentinel at its second poll,
while the code, polling at the 10-second cadence, never observes it and
returns Timeout once the 5-minute budget elapses. -/
theorem c7_counterexample :
    doContainerReadinessCheck demoWindowTrace 40 = some (.timeout, 32) ∧
    waitReadinessLoop demoWindowTrace 2 (0 + extraContainerReadinessTimeout) 40 0 =
      some (.ok, 2) := by
  refine ⟨by decide, by decide⟩

/-- C7 (amended): `doContainerReadinessCheck` returns success immediately,
without ever entering the health-polling loop, when the container declares
no health check; when one is declared it polls the health status every 10
seconds (not 2) with budget equal to the declared start period plus the
fixed 5-minute grace period, succeeding when a poll observes the healthy
sentinel and returning Timeout only once the budget has elapsed with every
poll observing a non-healthy declared status. -/
theorem c7_amended :
    (∀ (inspect : Int → Except String InspectContainerData) (fuel : Nat)
        (d : InspectContainerData), inspect 0 = .ok d →
        fetchContainerStartPeriod d = -1 →
        doContainerReadinessCheck inspect fuel = some (.ok, 0)) ∧
    (∀ (inspect : Int → Except String InspectContainerData) (fuel : Nat)
        (d : InspectContainerData) (sp : Int), inspect 0 = .ok d →
        fetchContainerStartPeriod d = sp → sp ≠ -1 →
        doContainerReadinessCheck inspect fuel =
          waitForContainerReadiness inspect (sp + extraContainerReadinessTimeout) fuel) ∧
    inspectPollInterval = 10 ∧ extraContainerReadinessTimeout = 300 ∧
    (∀ (inspect : Int → Except String InspectContainerData) (timeout : Int) (fuel i : Nat)
        (st : InspectContainerData) (hs : HealthState),
        inspect ((i : Int) * inspectPollInterval) = .ok st → st.state.health = some hs →
        hs.status = readySentinel →
        waitReadinessLoop inspect inspectPollInterval timeout (fuel + 1) i = some (.ok, 1)) ∧
    (∀ (inspect : Int → Except String InspectContainerData) (timeout : Int) (fuel m : Nat),
        waitForContainerReadiness inspect timeout fuel = some (.timeout, m) →
        ∃ (j : Nat), ((j : Int) * inspectPollInterval) > timeout ∧
          ∀ (k : Nat), k ≤ j →
            ∃ st hs, inspect ((k : Int) * inspectPollInterval) = .ok st ∧
              st.state.health = some hs ∧ hs.status ≠ readySentinel) := by
  refine ⟨?_, ?_, rfl, rfl, ?_, ?_⟩
  · intro inspect fuel d h hsp
    simp [doContainerReadinessCheck, h, hsp]
  · intro inspect fuel d sp h hsp hne
    simp [doContainerReadinessCheck, h, hsp, hne]
  · intro inspect timeout fuel i st hs hins hh hr
    exact readinessLoop_ok_of_healthy inspect inspectPollInterval timeout fuel i st hs hins hh hr
  · intro inspect timeout fuel m h
    rcases readinessLoop_timeout_elapsed inspect inspectPollInterval timeout fuel 0 m h with
      ⟨j, _, hjd, hall⟩
    exact ⟨j, hjd, fun k hkj => hall k (Nat.zero_le k) hkj⟩

/-- C7 amended witness: concrete instantiations of every conjunct. -/
theorem c7_amended_witness :
    doContainerReadinessCheck (fun _ => .ok demoNoHealth) 5 = some (.ok, 0) ∧
    doContainerReadinessCheck (fun _ => .ok demoHealthy) 3 =
      waitForContainerReadiness (fun _ => .ok demoHealthy)
        (7 + extraContainerReadinessTimeout) 3 ∧
    waitReadinessLoop (fun _ => .ok demoHealthy) inspectPollInterval (-5) 1 0 =
      some (.ok, 1) ∧
    (∃ (j : Nat), ((j : Int) * inspectPollInterval) > (-1 : Int) ∧
        ∀ (k : Nat), k ≤ j →
          ∃ st hs, (fun _ => Except.ok demoStarting :
              Int → Except String InspectContainerData) ((k : Int) * inspectPollInterval)
              = .ok st ∧ st.state.health = some hs ∧ hs.status ≠ readySentinel) := by
  refine ⟨?_, ?_, ?_, ?_⟩
  · exact c7_amended.1 (fun _ => .ok demoNoHealth) 5 demoNoHealth rfl rfl
  · exact c7_amended.2.1 (fun _ => .ok demoHealthy) 3 demoHealthy 7 rfl rfl (by decide)
  · exact c7_amended.2.2.2.2.1 (fun _ => .ok demoHealthy) (-5) 0 0 demoHealthy
      ⟨"healthy"⟩ rfl rfl rfl
  · exact c7_amended.2.2.2.2.2 (fun _ => .ok demoStarting) (-1) 1 1 (by decide)

/-- Running the fan-out from start index i with the first failing layer at
relative position k: every earlier layer runs clean, every task of the
failing layer still runs (the whole layer appears in the started list),
the tagged errors of layer k are returned, and nothing later starts. -/
theorem execPodTemplates_first_failure (execUnit : String → Option String) :
    ∀ (plan : List (List String)) (i k : Nat) (hk : k < plan.length),
      layerErrors execUnit (i + k + 1) (plan.get ⟨k, hk⟩) ≠ [] →
      (∀ (j : Nat) (hj : j < k),
        layerErrors execUnit (i + j + 1) (plan.get ⟨j, lt_trans hj hk⟩) = []) →
      executePodTemplates execUnit plan i =
        ((plan.take k).flatten ++ plan.get ⟨k, hk⟩,
          some (i + k + 1, layerErrors execUnit (i + k + 1) (plan.get ⟨k, hk⟩))) := by
  intro plan
  induction plan with
  | nil =>
    intro i k hk
    exact absurd hk (by simp)
  | cons layer rest ih =>
    intro i k hk hfail hok
    cases k with
    | zero =>
      have hne : ¬ (layerErrors execUnit (i + 1) layer).isEmpty = true := by
        simpa [List.isEmpty_iff] using hfail
      simp only [executePodTemplates]
      rw [if_neg hne]
      simp
    | succ k =>
      have h0 : (layerErrors execUnit (i + 1) layer).isEmpty = true := by
        have := hok 0 (Nat.succ_pos k)
        simpa [List.isEmpty_iff] using this
      have hk' : k < rest.length := Nat.lt_of_succ_lt_succ hk
      have harith : i + 1 + k + 1 = i + (k + 1) + 1 := by omega
      have hfail' : layerErrors execUnit (i + 1 + k + 1) (rest.get ⟨k, hk'⟩) ≠ [] := by
        rw [harith]
        exact hfail
      have hok' : ∀ (j : Nat) (hj : j < k),
          layerErrors execUnit (i + 1 + j + 1) (rest.get ⟨j, lt_trans hj hk'⟩) = [] := by
        intro j hj
        have harj : i + 1 + j + 1 = i + (j + 1) + 1 := by omega
        rw [harj]
        exact hok (j + 1) (Nat.succ_lt_succ hj)
      have hrec := ih (i + 1) k hk' hfail' hok'
      simp only [executePodTemplates]
      rw [if_pos h0, hrec]
      rw [harith]
      simp [List.take_succ_cons, List.append_assoc]

/-- C1: for every plan, if any unit's task in the first failing layer k
reports an error, every task of layer k still ran (the started list ends
with the whole of layer k, siblings included), the collected errors are
returned as one aggregate naming layer k with each error tagged with the
layer index, the fan-out returns it immediately, and no task of any later
layer is ever started (the started list is exactly the layers through k). -/
theorem c1_layer_failure (execUnit : String → Option String)
    (plan : List (List String)) (k : Nat) (hk : k < plan.length)
    (hfail : layerErrors execUnit (k + 1) (plan.get ⟨k, hk⟩) ≠ [])
    (hok : ∀ (j : Nat) (hj : j < k),
      layerErrors execUnit (j + 1) (plan.get ⟨j, lt_trans hj hk⟩) = []) :
    executePodTemplates execUnit plan 0 =
      ((plan.take k).flatten ++ plan.get ⟨k, hk⟩,
        some (k + 1, layerErrors execUnit (k + 1) (plan.get ⟨k, hk⟩))) ∧
    ∀ e ∈ layerErrors execUnit (k + 1) (plan.get ⟨k, hk⟩),
      ∃ u e0, u ∈ plan.get ⟨k, hk⟩ ∧ execUnit u = some e0 ∧
        e = "layer " ++ toString (k + 1) ++ ": " ++ e0 := by
  constructor
  · have h := execPodTemplates_first_failure execUnit plan 0 k hk
      (by simpa using hfail) (fun j hj => by simpa using hok j hj)
    simpa using h
  · intro e he
    have he' : e ∈ (plan.get ⟨k, hk⟩).filterMap
        (fun u => (execUnit u).map
          (fun e => "layer " ++ toString (k + 1) ++ ": " ++ e)) := he
    rcases List.mem_filterMap.mp he' with ⟨u, hu, hmap⟩
    rcases Option.map_eq_some'.mp hmap with ⟨e0, hex, htag⟩
    exact ⟨u, e0, hu, hex, htag.symm⟩

/-- C1 witness: the demonstration plan fails in its second layer; both
members of that layer ran, the third layer never started. -/
theorem c1_witness :
    layerErrors demoExecUnit 2 (demoPlan.get ⟨1, by decide⟩) ≠ [] ∧
    executePodTemplates demoExecUnit demoPlan 0 =
      (["a", "b", "c"], some (2, ["layer 2: boom"])) := by
  constructor
  · decide
  · have h := (c1_layer_failure demoExecUnit demoPlan 1 (by decide) (by decide)
      (fun j hj => by
        have hj0 : j = 0 := by omega
        subst hj0
        exact (by decide :
          layerErrors demoExecUnit (0 + 1) (demoPlan.get ⟨0, Nat.succ_pos 2⟩) = []))).1
    rw [h]
    decide

/-- C8: a unit whose pod name is in the pre-captured already-deployed set
produces a Skipped outcome, makes zero calls to the manifest-render
collaborator and zero calls to the runtime-submit collaborator, and
leaves the pool untouched. -/
theorem c8_skip_zero_calls
    (fetch : String → Except String PodSpec)
    (render : String → Except String String)
    (deploy : String → Except String Unit)
    (existingPods pool : List String) (podTemplateName : String)
    (spec : PodSpec) (hfetch : fetch podTemplateName = .ok spec)
    (hmem : spec.name ∈ existingPods) :
    executePodTemplateLayer fetch render deploy existingPods pool podTemplateName =
      ⟨.skipped, 0, 0, pool⟩ := by
  simp [executePodTemplateLayer, hfetch, hmem]

/-- C8 witness: the demonstration pod p1 is already deployed. -/
theorem c8_witness :
    (fun _ => Except.ok demoSpec : String → Except String PodSpec) "t" = .ok demoSpec ∧
    demoSpec.name ∈ ["p1", "q"] ∧
    executePodTemplateLayer (fun _ => .ok demoSpec) (fun _ => .ok "manifest")
      (fun _ => .ok ()) ["p1", "q"] ["card0"] "t" = ⟨.skipped, 0, 0, ["card0"]⟩ :=
  ⟨rfl, by decide,
    c8_skip_zero_calls (fun _ => .ok demoSpec) (fun _ => .ok "manifest") (fun _ => .ok ())
      ["p1", "q"] ["card0"] "t" demoSpec rfl (by decide)⟩

/-- C4: reserving more than the currently available count fails with
InsufficientResources and reserves nothing: nothing is handed out and the
pool after the failed call equals the pool before it. -/
theorem c4_reserve_atomic (pool : List String) (count : Nat)
    (h : pool.length < count) :
    reserve pool count = .error insufficientResourcesMsg ∧
    reserveStep pool count = (none, pool) := by
  have hne : count ≠ 0 := by omega
  have hgt : ¬ count ≤ pool.length := by omega
  exact ⟨by simp [reserve, hne, hgt], by simp [reserveStep, reserve, hne, hgt]⟩

/-- C4 witness: reserving 3 from a pool of 2. -/
theorem c4_witness :
    (["r1", "r2"] : List String).length < 3 ∧
    reserve ["r1", "r2"] 3 = .error insufficientResourcesMsg ∧
    reserveStep ["r1", "r2"] 3 = (none, ["r1", "r2"]) :=
  ⟨by decide, (c4_reserve_atomic ["r1", "r2"] 3 (by decide)).1,
    (c4_reserve_atomic ["r1", "r2"] 3 (by decide)).2⟩

/-- The serialized reservation run always hands out a front segment of
the pool and leaves the matching remainder. -/
theorem runReservations_take_drop (counts : List Nat) :
    ∀ (pool : List String),
      ∃ m, m ≤ pool.length ∧
        ((runReservations pool counts).1.filterMap id).flatten = pool.take m ∧
        (runReservations pool counts).2 = pool.drop m := by
  induction counts with
  | nil =>
    intro pool
    exact ⟨0, Nat.zero_le _, by simp [runReservations], by simp [runReservations]⟩
  | cons c cs ih =>
    intro pool
    by_cases hc : c = 0
    · subst hc
      rcases ih pool with ⟨m, hm, hflat, hdrop⟩
      refine ⟨m, hm, ?_, ?_⟩
      · simp [runReservations, reserveStep, reserve, hflat]
      · simp [runReservations, reserveStep, reserve, hdrop]
    · by_cases hle : c ≤ pool.length
      · rcases ih (pool.drop c) with ⟨m, hm, hflat, hdrop⟩
        refine ⟨c + m, ?_, ?_, ?_⟩
        · have hlen : (pool.drop c).length = pool.length - c := List.length_drop c pool
          omega
        · rw [List.take_add]
          simp [runReservations, reserveStep, reserve, hc, hle, hflat]
        · rw [← List.drop_drop]
          simp [runReservations, reserveStep, reserve, hc, hle, hdrop]
      · rcases ih pool with ⟨m, hm, hflat, hdrop⟩
        refine ⟨m, hm, ?_, ?_⟩
        · simp [runReservations, reserveStep, reserve, hc, hle, hflat]
        · simp [runReservations, reserveStep, reserve, hc, hle, hdrop]

/-- C2: over a single attempt's serialized reservation sequence against a
duplicate-free pool of size N: every handed-out identifier comes from the
pool, no identifier is handed out twice across (or within) reservations,
the total handed out never exceeds N, and a handed-out identifier is
never present in the pool afterwards (no release back into the pool). -/
theorem c2_no_double_assignment (pool : List String) (counts : List Nat)
    (hnd : pool.Nodup) :
    (∀ l ∈ (runReservations pool counts).1.filterMap id, ∀ x ∈ l, x ∈ pool) ∧
    ((runReservations pool counts).1.filterMap id).flatten.Nodup ∧
    ((runReservations pool counts).1.filterMap id).flatten.length ≤ pool.length ∧
    (∀ x ∈ ((runReservations pool counts).1.filterMap id).flatten,
      x ∉ (runReservations pool counts).2) := by
  rcases runReservations_take_drop counts pool with ⟨m, hm, hflat, hdrop⟩
  have hsub : List.Sublist (pool.take m) pool := List.take_sublist m pool
  refine ⟨?_, ?_, ?_, ?_⟩
  · intro l hl x hx
    have hxf : x ∈ ((runReservations pool counts).1.filterMap id).flatten :=
      List.mem_flatten.mpr ⟨l, hl, hx⟩
    rw [hflat] at hxf
    exact hsub.subset hxf
  · rw [hflat]
    exact hnd.sublist hsub
  · rw [hflat]
    calc (pool.take m).length ≤ m := List.length_take_le m pool
      _ ≤ pool.length := hm
  · intro x hx hxd
    rw [hflat] at hx
    rw [hdrop] at hxd
    have hnd2 : (pool.take m ++ pool.drop m).Nodup := by
      rw [List.take_append_drop]
      exact hnd
    exact (List.nodup_append.mp hnd2).2.2 hx hxd

/-- C2 witness: a pool of three distinct cards served four reservation
requests (one failing for lack of resources). -/
theorem c2_witness :
    (["pa", "pb", "pc"] : List String).Nodup ∧
    (∀ l ∈ (runReservations ["pa", "pb", "pc"] [1, 0, 5, 2]).1.filterMap id,
      ∀ x ∈ l, x ∈ ["pa", "pb", "pc"]) ∧
    ((runReservations ["pa", "pb", "pc"] [1, 0, 5, 2]).1.filterMap id).flatten.Nodup ∧
    ((runReservations ["pa", "pb", "pc"] [1, 0, 5, 2]).1.filterMap id).flatten.length ≤
      (["pa", "pb", "pc"] : List String).length ∧
    (∀ x ∈ ((runReservations ["pa", "pb", "pc"] [1, 0, 5, 2]).1.filterMap id).flatten,
      x ∉ (runReservations ["pa", "pb", "pc"] [1, 0, 5, 2]).2) := by
  have h := c2_no_double_assignment ["pa", "pb", "pc"] [1, 0, 5, 2] (by decide)
  exact ⟨by decide, h.1, h.2.1, h.2.2.1, h.2.2.2⟩

/-- C3: with a verified plan and not all pods already deployed, if the
total spyre-card demand of the not-yet-deployed pods exceeds the number
of free discovered cards, the whole attempt fails with the
insufficient-spyre-cards error and zero manifests are submitted, whatever
the deployment stage would have done. -/
theorem c3_preflight (specOf : String → Except String PodSpec)
    (tmplNames : List String) (podTemplateExecutions : List (List String))
    (existing freeCards : List String) (deployAll : List String → Nat × Option String)
    (req : Int)
    (hverify : verifyPodTemplateExists tmplNames podTemplateExecutions = .ok ())
    (hnotall : existing.length ≠ tmplNames.length)
    (hreq : calculateReqSpyreCards specOf existing tmplNames = .ok req)
    (hlack : (freeCards.length : Int) < req) :
    createRun specOf tmplNames podTemplateExecutions existing freeCards deployAll =
      (.earlyError ("insufficient spyre cards. Require: " ++ toString req ++
        " spyre cards to proceed"), 0) := by
  have hpos : 0 < req := lt_of_le_of_lt (Int.natCast_nonneg freeCards.length) hlack
  simp [createRun, hverify, hnotall, hreq, hpos, validateSpyreCardRequirements, hlack]

/-- C3 witness: two pods demanding two cards each against three free
cards; the deployment stage (which would submit 7 manifests) never runs. -/
theorem c3_witness :
    verifyPodTemplateExists ["t1", "t2"] [["t1"], ["t2"]] = .ok () ∧
    (["x"] : List String).length ≠ (["t1", "t2"] : List String).length ∧
    calculateReqSpyreCards (fun n => .ok ⟨n, [("spyre-card/c", "2")], ["c"]⟩) ["x"]
      ["t1", "t2"] = .ok 4 ∧
    ((["card0", "card1", "card2"] : List String).length : Int) < 4 ∧
    createRun (fun n => .ok ⟨n, [("spyre-card/c", "2")], ["c"]⟩) ["t1", "t2"]
      [["t1"], ["t2"]] ["x"] ["card0", "card1", "card2"] (fun _ => (7, none)) =
      (.earlyError ("insufficient spyre cards. Require: " ++ toString (4 : Int) ++
        " spyre cards to proceed"), 0) := by
  refine ⟨by decide, by decide, by decide, by decide, ?_⟩
  exact c3_preflight (fun n => .ok ⟨n, [("spyre-card/c", "2")], ["c"]⟩) ["t1", "t2"]
    [["t1"], ["t2"]] ["x"] ["card0", "card1", "card2"] (fun _ => (7, none)) 4
    (by decide) (by decide) (by decide) (by decide)

/-- C5 counterexample: the check is not set equality: the plan that lists
unit a twice and omits unit b entirely passes verification although the
union of its layers omits a declared unit. -/
theorem c5_counterexample :
    verifyPodTemplateExists ["a", "b"] [["a", "a"]] = .ok () ∧
    "b" ∉ flattenArray [["a", "a"]] ∧ "b" ∈ (["a", "b"] : List String) := by
  refine ⟨by decide, by decide, by decide⟩

/-- C5 (amended): before any deployment begins the orchestrator checks
that the flattened plan has exactly as many entries as there are declared
pod templates and that every entry names a declared template, rejecting a
violating plan with a fatal configuration error before any unit deploys;
every duplicate-free plan covering the declared set exactly is accepted,
but a plan that duplicates one name while omitting another (keeping the
count equal) passes the check undetected. -/
theorem c5_amended :
    (∀ (tmplNames : List String) (plan : List (List String)),
        verifyPodTemplateExists tmplNames plan = .ok () ↔
          ((flattenArray plan).length = tmplNames.length ∧
            ∀ t ∈ flattenArray plan, t ∈ tmplNames)) ∧
    (∀ (tmplNames : List String) (plan : List (List String)),
        tmplNames.Nodup → (flattenArray plan).Nodup →
        (∀ t ∈ flattenArray plan, t ∈ tmplNames) →
        (∀ t ∈ tmplNames, t ∈ flattenArray plan) →
        verifyPodTemplateExists tmplNames plan = .ok ()) ∧
    (∀ (specOf : String → Except String PodSpec) (tmplNames : List String)
        (plan : List (List String)) (existing freeCards : List String)
        (deployAll : List String → Nat × Option String) (e : String),
        verifyPodTemplateExists tmplNames plan = .error e →
        createRun specOf tmplNames plan existing freeCards deployAll =
          (.earlyError e, 0)) := by
  have hchar : ∀ (tmplNames : List String) (plan : List (List String)),
      verifyPodTemplateExists tmplNames plan = .ok () ↔
        ((flattenArray plan).length = tmplNames.length ∧
          ∀ t ∈ flattenArray plan, t ∈ tmplNames) := by
    intro tmplNames plan
    constructor
    · intro h
      by_cases h1 : (flattenArray plan).length = tmplNames.length
      · refine ⟨h1, ?_⟩
        by_cases h2 : ∀ t ∈ flattenArray plan, t ∈ tmplNames
        · exact h2
        · have hall : ¬ (flattenArray plan).all (fun t => decide (t ∈ tmplNames)) = true := by
            simpa [List.all_eq_true] using h2
          simp [verifyPodTemplateExists, h1, hall] at h
      · simp [verifyPodTemplateExists, h1] at h
    · rintro ⟨h1, h2⟩
      have hall : (flattenArray plan).all (fun t => decide (t ∈ tmplNames)) = true := by
        simpa [List.all_eq_true] using h2
      simp [verifyPodTemplateExists, h1, hall]
  refine ⟨hchar, ?_, ?_⟩
  · intro tmplNames plan hndT hndF hsub hsup
    have hlen : (flattenArray plan).length = tmplNames.length :=
      le_antisymm ((hndF.subperm hsub).length_le) ((hndT.subperm hsup).length_le)
    exact (hchar tmplNames plan).mpr ⟨hlen, hsub⟩
  · intro specOf tmplNames plan existing freeCards deployAll e herr
    simp [createRun, herr]

/-- C5 amended witness: concrete instantiations of every conjunct. -/
theorem c5_amended_witness :
    (verifyPodTemplateExists ["a", "b"] [["b"], ["a"]] = .ok () ↔
      ((flattenArray [["b"], ["a"]]).length = (["a", "b"] : List String).length ∧
        ∀ t ∈ flattenArray [["b"], ["a"]], t ∈ (["a", "b"] : List String))) ∧
    verifyPodTemplateExists ["a", "b"] [["b"], ["a"]] = .ok () ∧
    createRun (fun _ => .ok demoSpec) ["a", "b"] [["a"]] [] [] (fun _ => (9, none)) =
      (.earlyError "number of values specified in podTemplateExecutions under metadata.yml is mismatched",
        0) := by
  refine ⟨c5_amended.1 ["a", "b"] [["b"], ["a"]], ?_, ?_⟩
  · exact c5_amended.2.1 ["a", "b"] [["b"], ["a"]] (by decide) (by decide)
      (by decide) (by decide)
  · exact c5_amended.2.2 (fun _ => .ok demoSpec) ["a", "b"] [["a"]] [] []
      (fun _ => (9, none)) _ (by decide)

/-- Trimming only removes characters. -/
theorem trimSpace_subset (l : List Char) : ∀ c ∈ trimSpace l, c ∈ l := by
  intro c hc
  unfold trimSpace at hc
  have h1 := List.mem_reverse.mp hc
  have h2 := (List.dropWhile_sublist (l := ((l.dropWhile isSpaceChar).reverse))
    (p := isSpaceChar)).subset h1
  have h3 := List.mem_reverse.mp h2
  exact (List.dropWhile_sublist (l := l) (p := isSpaceChar)).subset h3

/-- No piece produced by the comma split contains a comma. -/
theorem splitComma_no_comma : ∀ (l : List Char), ∀ p ∈ splitComma l, ',' ∉ p := by
  intro l
  induction l with
  | nil =>
    intro p hp
    simp [splitComma] at hp
    subst hp
    simp
  | cons c rest ih =>
    intro p hp
    by_cases hc : c = ','
    · subst hc
      simp [splitComma] at hp
      rcases hp with hp | hp
      · subst hp; simp
      · exact ih p hp
    · cases hsp : splitComma rest with
      | nil =>
        simp [splitComma, hc, hsp] at hp
        subst hp
        intro hmem
        rcases List.mem_singleton.mp hmem with h1
        exact hc h1.symm
      | cons h t =>
        simp only [splitComma, if_neg hc, hsp] at hp
        rcases List.mem_cons.mp hp with hp | hp
        · subst hp
          intro hmem
          rcases List.mem_cons.mp hmem with h1 | h1
          · exact hc h1.symm
          · exact ih h (by rw [hsp]; exact List.mem_cons_self h t) h1
        · exact ih p (by rw [hsp]; exact List.mem_cons_of_mem h hp)

/-- Splitting a comma-free piece followed by a comma peels the piece off. -/
theorem splitComma_append (e rest : List Char) (he : ',' ∉ e) :
    splitComma (e ++ ',' :: rest) = e :: splitComma rest := by
  induction e with
  | nil => simp [splitComma]
  | cons c e ih =>
    have hc : c ≠ ',' := fun h => he (h ▸ List.mem_cons_self c e)
    have he' : ',' ∉ e := fun h => he (List.mem_cons_of_mem c h)
    simp only [List.cons_append, splitComma, if_neg hc, List.append_eq, ih he']

/-- Splitting the concatenation of comma-terminated comma-free pieces
recovers the pieces plus one trailing empty piece. -/
theorem splitComma_flatten (es : List (List Char)) (h : ∀ e ∈ es, ',' ∉ e) :
    splitComma ((es.map (fun e => e ++ [','])).flatten) = es ++ [[]] := by
  induction es with
  | nil => simp [splitComma]
  | cons e es ih =>
    simp only [List.map_cons, List.flatten_cons, List.append_assoc,
      List.singleton_append]
    rw [splitComma_append e _ (h e (List.mem_cons_self e es))]
    rw [ih (fun q hq => h q (List.mem_cons_of_mem e hq))]
    rfl

/-- The publish arguments recover exactly the non-empty comma-free pieces
that were joined into the publish option string. -/
theorem publishArgs_of_entries (es : List (List Char))
    (hcomma : ∀ e ∈ es, ',' ∉ e) (hne : ∀ e ∈ es, e ≠ []) :
    publishArgs ((es.map (fun e => e ++ [','])).flatten) = es := by
  unfold publishArgs
  rw [splitComma_flatten es hcomma]
  rw [List.filter_append]
  have h1 : es.filter (fun p => decide (p ≠ [])) = es :=
    List.filter_eq_self.mpr (fun a ha => by simpa using hne a ha)
  have h2 : ([[]] : List (List Char)).filter (fun p => decide (p ≠ [])) = [] := by decide
  rw [h1, h2, List.append_nil]

/-- A parsed port entry has a non-empty container port, and both parts are
built from characters of the original piece. -/
theorem parsePortEntry_props (p cp hp : List Char)
    (h : parsePortEntry p = some (cp, hp)) :
    cp ≠ [] ∧ (∀ c ∈ cp, c ∈ p) ∧ (∀ c ∈ hp, c ∈ p) := by
  unfold parsePortEntry at h
  by_cases hp0 : trimSpace p = []
  · simp [hp0] at h
  · rw [if_neg hp0] at h
    cases hd : (trimSpace p).dropWhile (fun c => c ≠ ':') with
    | nil =>
      rw [hd] at h
      simp only [Option.some.injEq, Prod.mk.injEq] at h
      rcases h with ⟨h1, h2⟩
      subst h1
      subst h2
      exact ⟨hp0, fun c hc => trimSpace_subset p c hc, by simp⟩
    | cons c' after =>
      rw [hd] at h
      dsimp only at h
      by_cases hcp : trimSpace after = []
      · simp [hcp] at h
      · rw [if_neg hcp] at h
        simp only [Option.some.injEq, Prod.mk.injEq] at h
        rcases h with ⟨h1, h2⟩
        subst h1
        subst h2
        refine ⟨hcp, ?_, ?_⟩
        · intro c hc
          have h3 : c ∈ after := trimSpace_subset after c hc
          have h4 : c ∈ (trimSpace p).dropWhile (fun c => c ≠ ':') := by
            rw [hd]
            exact List.mem_cons_of_mem c' h3
          exact trimSpace_subset p c
            ((List.dropWhile_sublist (l := trimSpace p)
              (p := fun c => decide (c ≠ ':'))).subset h4)
        · intro c hc
          have h3 : c ∈ (trimSpace p).takeWhile (fun c => c ≠ ':') :=
            trimSpace_subset _ c hc
          exact trimSpace_subset p c
            ((List.takeWhile_sublist (l := trimSpace p)
              (p := fun c => decide (c ≠ ':'))).subset h3)

/-- Go map insertion only yields bindings that were present before or the
inserted one. -/
theorem assocInsert_mem (m : List (List Char × List Char)) (k v : List Char) :
    ∀ kv ∈ assocInsert m k v, kv ∈ m ∨ kv = (k, v) := by
  intro kv hkv
  unfold assocInsert at hkv
  by_cases hany : m.any (fun kv => decide (kv.1 = k))
  · rw [if_pos hany] at hkv
    rcases List.mem_map.mp hkv with ⟨kv0, hkv0, heq⟩
    by_cases h0 : kv0.1 = k
    · right
      rw [← heq]
      simp [h0]
    · left
      rw [← heq]
      simpa [h0] using hkv0
  · rw [if_neg hany] at hkv
    rcases List.mem_append.mp hkv with h | h
    · exact Or.inl h
    · exact Or.inr (by simpa using h)

/-- Every binding of the parsed host-port mapping has a non-empty
container port and no comma in either part. -/
theorem fetchHostPortMapping_props (s : List Char) :
    ∀ kv ∈ fetchHostPortMapping s, kv.1 ≠ [] ∧ ',' ∉ kv.1 ∧ ',' ∉ kv.2 := by
  suffices h : ∀ (pieces : List (List Char)) (acc : List (List Char × List Char)),
      (∀ p ∈ pieces, ',' ∉ p) →
      (∀ kv ∈ acc, kv.1 ≠ [] ∧ ',' ∉ kv.1 ∧ ',' ∉ kv.2) →
      ∀ kv ∈ pieces.foldl (fun m p =>
          match parsePortEntry p with
          | none => m
          | some e => assocInsert m e.1 e.2) acc,
        kv.1 ≠ [] ∧ ',' ∉ kv.1 ∧ ',' ∉ kv.2 by
    intro kv hkv
    exact h (splitComma s) [] (splitComma_no_comma s) (by simp) kv
      (by simpa [fetchHostPortMapping] using hkv)
  intro pieces
  induction pieces with
  | nil =>
    intro acc h1 h2 kv hkv
    simpa using h2 kv (by simpa using hkv)
  | cons p ps ih =>
    intro acc h1 h2 kv hkv
    simp only [List.foldl_cons] at hkv
    refine ih _ (fun q hq => h1 q (List.mem_cons_of_mem p hq)) ?_ kv hkv
    intro kv' hkv'
    cases hpe : parsePortEntry p with
    | none =>
      rw [hpe] at hkv'
      exact h2 kv' hkv'
    | some e =>
      rw [hpe] at hkv'
      rcases assocInsert_mem acc e.1 e.2 kv' hkv' with hin | hnew
      · exact h2 kv' hin
      · rcases parsePortEntry_props p e.1 e.2 (by rw [hpe]) with ⟨hne, hsub1, hsub2⟩
        have hpc : ',' ∉ p := h1 p (List.mem_cons_self p ps)
        subst hnew
        exact ⟨hne, fun hc => hpc (hsub1 ',' hc), fun hc => hpc (hsub2 ',' hc)⟩

/-- Every publish piece is non-empty and comma-free. -/
theorem publishPieces_props (m : List (List Char × List Char))
    (hm : ∀ kv ∈ m, kv.1 ≠ [] ∧ ',' ∉ kv.1 ∧ ',' ∉ kv.2) :
    ∀ e ∈ publishPieces m, ',' ∉ e ∧ e ≠ [] := by
  intro e he
  rcases List.mem_filterMap.mp he with ⟨kv, hkv, hmap⟩
  rcases hm kv hkv with ⟨h1, h2, h3⟩
  by_cases hz : kv.2 = ['0']
  · simp [hz] at hmap
  · by_cases hn : kv.2 = []
    · rw [if_neg hz, if_neg (by simp [hn])] at hmap
      have he1 : e = kv.1 := by simpa [hn] using hmap.symm
      subst he1
      exact ⟨h2, h1⟩
    · rw [if_neg hz, if_pos (by simpa using hn)] at hmap
      have he1 : e = kv.2 ++ [':'] ++ kv.1 := by simpa using hmap.symm
      subst he1
      constructor
      · intro hc
        rcases List.mem_append.mp hc with hc | hc
        · rcases List.mem_append.mp hc with hc | hc
          · exact h3 hc
          · simp at hc
        · exact h2 hc
      · simp [hn]

/-- The source publish loop and the publish set of the spec agree
entrywise. -/
theorem publishPieces_eq_spec (m : List (List Char × List Char)) :
    publishPieces m = specPublishSet m := by
  unfold publishPieces specPublishSet
  apply List.filterMap_congr
  intro kv _
  by_cases hz : kv.2 = ['0']
  · simp [hz]
  · by_cases hn : kv.2 = []
    · simp [hz, hn]
    · simp [hz, hn]

/-- C9: for every raw ports-annotation value, the publish arguments
handed to the runtime contain exactly one hostPort:containerPort entry
per port-mapping entry with an explicit host port, one bare containerPort
entry per entry with an empty host port, and no entry at all for an entry
whose host port is the sentinel "0". -/
theorem c9_publish_set (s : List Char) :
    publishArgs (publishOptionString (fetchHostPortMapping s)) =
      specPublishSet (fetchHostPortMapping s) := by
  have hentry := publishPieces_props (fetchHostPortMapping s)
    (fetchHostPortMapping_props s)
  unfold publishOptionString
  rw [publishArgs_of_entries _ (fun e he => (hentry e he).1)
    (fun e he => (hentry e he).2)]
  exact publishPieces_eq_spec _

/-- C9 witness: the demonstration annotation exercising every branch. -/
theorem c9_witness :
    publishArgs (publishOptionString (fetchHostPortMapping demoPortsValue)) =
      specPublishSet (fetchHostPortMapping demoPortsValue) :=
  c9_publish_set demoPortsValue
